import Mathlib

/-!
Verification of the clipforge pipeline core against its specification.

Times (seconds) are modelled as rationals (`ℚ`); JavaScript numbers in the
source are IEEE doubles, but every property checked here is exact interval /
ordering arithmetic where the two agree on the inputs considered.
-/

namespace ClipForge

/-- `SilenceGap` record from `src/types/project.ts`:
`{start, end, duration}` in seconds. The TS field `end` is a Lean keyword,
so it is written `«end»`. -/
structure SilenceGap where
  start : ℚ
  «end» : ℚ
  duration : ℚ
deriving DecidableEq, Repr

/-- A non-silent span `{start, end}` as returned by `getActiveSegments`
(`src/lib/silence-detect.ts`). -/
structure Span where
  start : ℚ
  «end» : ℚ
deriving DecidableEq, Repr

/-- The qualifying-gap filter from `getActiveSegments`
(`silence-detect.ts` line 72-73):
`silenceGaps.filter(g => g.start >= startSec && g.end <= endSec && g.duration >= minGapToRemove)`. -/
def qualifyingGaps (startSec endSec : ℚ) (silenceGaps : List SilenceGap)
    (minGapToRemove : ℚ) : List SilenceGap :=
  silenceGaps.filter fun g =>
    decide (startSec ≤ g.start) && decide (g.«end» ≤ endSec) &&
      decide (minGapToRemove ≤ g.duration)

/-- The cursor walk of `getActiveSegments` (`silence-detect.ts` lines 79-91):
for each gap, emit `[cursor, gap.start]` when `gap.start > cursor`, advance the
cursor to `gap.end`; after the loop emit the trailing `[cursor, endSec]` span
when `cursor < endSec`. -/
def walkGaps (cursor endSec : ℚ) : List SilenceGap → List Span
  | [] => if cursor < endSec then [⟨cursor, endSec⟩] else []
  | g :: gs =>
      if g.start > cursor then
        ⟨cursor, g.start⟩ :: walkGaps g.«end» endSec gs
      else
        walkGaps g.«end» endSec gs

/-- `getActiveSegments(startSec, endSec, silenceGaps, minGapToRemove)` from
`src/lib/silence-detect.ts` lines 65-94 (the default of `minGapToRemove`
is `0.8` at the call sites). -/
def getActiveSegments (startSec endSec : ℚ) (silenceGaps : List SilenceGap)
    (minGapToRemove : ℚ) : List Span :=
  if (qualifyingGaps startSec endSec silenceGaps minGapToRemove).isEmpty then
    [⟨startSec, endSec⟩]
  else walkGaps startSec endSec
    (qualifyingGaps startSec endSec silenceGaps minGapToRemove)

/-- A time point lies in one of the (half-open) spans of a list. -/
def inSpans (l : List Span) (x : ℚ) : Prop :=
  ∃ s ∈ l, s.start ≤ x ∧ x < s.«end»

/-- A time point lies in one of the (half-open) silence gaps of a list. -/
def inGaps (l : List SilenceGap) (x : ℚ) : Prop :=
  ∃ g ∈ l, g.start ≤ x ∧ x < g.«end»

/-- Membership in the qualifying-gap filter, unfolded. -/
lemma mem_qualifyingGaps {startSec endSec minGap : ℚ} {l : List SilenceGap}
    {g : SilenceGap} :
    g ∈ qualifyingGaps startSec endSec l minGap ↔
      g ∈ l ∧ startSec ≤ g.start ∧ g.«end» ≤ endSec ∧ minGap ≤ g.duration := by
  simp [qualifyingGaps, List.mem_filter, and_assoc]

/-- Bounds invariant of the cursor walk: every emitted span lies in
`[cursor, endSec]` and is non-degenerate. -/
lemma walkGaps_bounds (endSec : ℚ) (gs : List SilenceGap) :
    ∀ cursor : ℚ,
      (∀ g ∈ gs, cursor ≤ g.start ∧ g.start ≤ g.«end» ∧ g.«end» ≤ endSec) →
      gs.Pairwise (fun a b => a.«end» ≤ b.start) →
      ∀ s ∈ walkGaps cursor endSec gs,
        cursor ≤ s.start ∧ s.start < s.«end» ∧ s.«end» ≤ endSec := by
  induction gs with
  | nil =>
      intro cursor _ _ s hs
      simp only [walkGaps] at hs
      split at hs
      · simp only [List.mem_singleton] at hs
        subst hs
        exact ⟨le_refl _, by assumption, le_refl _⟩
      · simp at hs
  | cons g gs ih =>
      intro cursor hg hpw s hs
      rw [List.pairwise_cons] at hpw
      have hghead := hg g (List.mem_cons_self g gs)
      have htail : ∀ g' ∈ gs, g.«end» ≤ g'.start ∧ g'.start ≤ g'.«end» ∧
          g'.«end» ≤ endSec := fun g' hg' =>
        ⟨hpw.1 g' hg', (hg g' (List.mem_cons_of_mem g hg')).2⟩
      have hrec := ih g.«end» htail hpw.2
      simp only [walkGaps] at hs
      split at hs
      · rcases List.mem_cons.mp hs with hs | hs
        · subst hs
          exact ⟨le_refl _, by assumption, le_trans hghead.2.1 hghead.2.2⟩
        · have h := hrec s hs
          exact ⟨le_trans (le_trans hghead.1 hghead.2.1) h.1, h.2⟩
      · have h := hrec s hs
        exact ⟨le_trans (le_trans hghead.1 hghead.2.1) h.1, h.2⟩

/-- The spans emitted by the cursor walk are ordered and pairwise
non-overlapping. -/
lemma walkGaps_pairwise (endSec : ℚ) (gs : List SilenceGap) :
    ∀ cursor : ℚ,
      (∀ g ∈ gs, cursor ≤ g.start ∧ g.start ≤ g.«end» ∧ g.«end» ≤ endSec) →
      gs.Pairwise (fun a b => a.«end» ≤ b.start) →
      (walkGaps cursor endSec gs).Pairwise (fun a b => a.«end» ≤ b.start) := by
  induction gs with
  | nil =>
      intro cursor _ _
      simp only [walkGaps]
      split <;> simp
  | cons g gs ih =>
      intro cursor hg hpw
      rw [List.pairwise_cons] at hpw
      have hghead := hg g (List.mem_cons_self g gs)
      have htail : ∀ g' ∈ gs, g.«end» ≤ g'.start ∧ g'.start ≤ g'.«end» ∧
          g'.«end» ≤ endSec := fun g' hg' =>
        ⟨hpw.1 g' hg', (hg g' (List.mem_cons_of_mem g hg')).2⟩
      have hrec := ih g.«end» htail hpw.2
      have hbounds := walkGaps_bounds endSec gs g.«end» htail hpw.2
      simp only [walkGaps]
      split
      · exact List.pairwise_cons.mpr
          ⟨fun s hs => le_trans hghead.2.1 (hbounds s hs).1, hrec⟩
      · exact hrec

/-- Partition invariant of the cursor walk: a time point lies in an emitted
span or in one of the walked gaps exactly when it lies in `[cursor, endSec)`. -/
lemma walkGaps_mem_iff (endSec : ℚ) (gs : List SilenceGap) :
    ∀ cursor : ℚ,
      (∀ g ∈ gs, cursor ≤ g.start ∧ g.start ≤ g.«end» ∧ g.«end» ≤ endSec) →
      gs.Pairwise (fun a b => a.«end» ≤ b.start) →
      ∀ x : ℚ,
        (inSpans (walkGaps cursor endSec gs) x ∨ inGaps gs x) ↔
          (cursor ≤ x ∧ x < endSec) := by
  induction gs with
  | nil =>
      intro cursor _ _ x
      simp only [walkGaps, inGaps, inSpans]
      split
      · simp only [List.mem_singleton, List.not_mem_nil]
        constructor
        · rintro (⟨s, rfl, h⟩ | ⟨g, hg, _⟩)
          · exact h
          · exact hg.elim
        · intro h
          exact Or.inl ⟨⟨cursor, endSec⟩, rfl, h⟩
      · simp only [List.not_mem_nil]
        constructor
        · rintro (⟨s, hs, _⟩ | ⟨g, hg, _⟩)
          · exact hs.elim
          · exact hg.elim
        · rintro ⟨h1, h2⟩
          exact absurd (lt_of_le_of_lt h1 h2) (by assumption)
  | cons g gs ih =>
      intro cursor hg hpw x
      rw [List.pairwise_cons] at hpw
      have hghead := hg g (List.mem_cons_self g gs)
      have htail : ∀ g' ∈ gs, g.«end» ≤ g'.start ∧ g'.start ≤ g'.«end» ∧
          g'.«end» ≤ endSec := fun g' hg' =>
        ⟨hpw.1 g' hg', (hg g' (List.mem_cons_of_mem g hg')).2⟩
      have hrec := ih g.«end» htail hpw.2 x
      simp only [walkGaps]
      split
      · rename_i hemit
        constructor
        · rintro (h | h)
          · rcases h with ⟨s, hs, hsx⟩
            rcases List.mem_cons.mp hs with rfl | hs
            · exact ⟨hsx.1, lt_of_lt_of_le hsx.2
                (le_trans hghead.2.1 hghead.2.2)⟩
            · have := hrec.mp (Or.inl ⟨s, hs, hsx⟩)
              exact ⟨le_trans (le_trans (le_of_lt hemit) hghead.2.1) this.1,
                this.2⟩
          · rcases h with ⟨g', hg', hgx⟩
            rcases List.mem_cons.mp hg' with rfl | hg'
            · exact ⟨le_trans (le_of_lt hemit) hgx.1,
                lt_of_lt_of_le hgx.2 hghead.2.2⟩
            · have := hrec.mp (Or.inr ⟨g', hg', hgx⟩)
              exact ⟨le_trans (le_trans (le_of_lt hemit) hghead.2.1) this.1,
                this.2⟩
        · rintro ⟨h1, h2⟩
          by_cases hx1 : x < g.start
          · exact Or.inl ⟨⟨cursor, g.start⟩, List.mem_cons_self _ _, h1, hx1⟩
          · push_neg at hx1
            by_cases hx2 : x < g.«end»
            · exact Or.inr ⟨g, List.mem_cons_self g gs, hx1, hx2⟩
            · push_neg at hx2
              rcases hrec.mpr ⟨hx2, h2⟩ with h | h
              · rcases h with ⟨s, hs, hsx⟩
                exact Or.inl ⟨s, List.mem_cons_of_mem _ hs, hsx⟩
              · rcases h with ⟨g', hg', hgx⟩
                exact Or.inr ⟨g', List.mem_cons_of_mem _ hg', hgx⟩
      · rename_i hemit
        push_neg at hemit
        constructor
        · rintro (h | h)
          · have := hrec.mp (Or.inl h)
            exact ⟨le_trans (le_trans hghead.1 hghead.2.1) this.1, this.2⟩
          · rcases h with ⟨g', hg', hgx⟩
            rcases List.mem_cons.mp hg' with rfl | hg'
            · exact ⟨le_trans hghead.1 hgx.1,
                lt_of_lt_of_le hgx.2 hghead.2.2⟩
            · have := hrec.mp (Or.inr ⟨g', hg', hgx⟩)
              exact ⟨le_trans (le_trans hghead.1 hghead.2.1) this.1, this.2⟩
        · rintro ⟨h1, h2⟩
          by_cases hx2 : x < g.«end»
          · exact Or.inr ⟨g, List.mem_cons_self g gs, le_trans hemit h1, hx2⟩
          · push_neg at hx2
            rcases hrec.mpr ⟨hx2, h2⟩ with h | h
            · exact Or.inl h
            · rcases h with ⟨g', hg', hgx⟩
              exact Or.inr ⟨g', List.mem_cons_of_mem _ hg', hgx⟩

/-- The spans emitted by the cursor walk never overlap the walked gaps. -/
lemma walkGaps_disjoint (endSec : ℚ) (gs : List SilenceGap) :
    ∀ cursor : ℚ,
      (∀ g ∈ gs, cursor ≤ g.start ∧ g.start ≤ g.«end» ∧ g.«end» ≤ endSec) →
      gs.Pairwise (fun a b => a.«end» ≤ b.start) →
      ∀ s ∈ walkGaps cursor endSec gs, ∀ g ∈ gs,
        g.«end» ≤ s.start ∨ s.«end» ≤ g.start := by
  induction gs with
  | nil =>
      intro cursor _ _ s _ g hg
      exact absurd hg (List.not_mem_nil g)
  | cons g gs ih =>
      intro cursor hg hpw s hs g' hg'
      rw [List.pairwise_cons] at hpw
      have hghead := hg g (List.mem_cons_self g gs)
      have htail : ∀ g'' ∈ gs, g.«end» ≤ g''.start ∧ g''.start ≤ g''.«end» ∧
          g''.«end» ≤ endSec := fun g'' hg'' =>
        ⟨hpw.1 g'' hg'', (hg g'' (List.mem_cons_of_mem g hg'')).2⟩
      have hbounds := walkGaps_bounds endSec gs g.«end» htail hpw.2
      simp only [walkGaps] at hs
      split at hs
      · rcases List.mem_cons.mp hs with rfl | hs
        · rcases List.mem_cons.mp hg' with rfl | hg'
          · exact Or.inr (le_refl _)
          · exact Or.inr (le_trans hghead.2.1 (hpw.1 g' hg'))
        · rcases List.mem_cons.mp hg' with rfl | hg'
          · exact Or.inl (hbounds s hs).1
          · exact ih g.«end» htail hpw.2 s hs g' hg'
      · rcases List.mem_cons.mp hg' with rfl | hg'
        · exact Or.inl (hbounds s hs).1
        · exact ih g.«end» htail hpw.2 s hs g' hg'

/-- Each qualifying gap is a well-formed subinterval of the window, given
sorted gaps whose `duration` field is consistent and a non-negative
threshold. -/
lemma qualifyingGaps_wf {gaps : List SilenceGap} {startSec endSec minGap : ℚ}
    (hdur : ∀ g ∈ gaps, g.duration = g.«end» - g.start) (hmin : 0 ≤ minGap) :
    ∀ g ∈ qualifyingGaps startSec endSec gaps minGap,
      startSec ≤ g.start ∧ g.start ≤ g.«end» ∧ g.«end» ≤ endSec := by
  intro g hgq
  obtain ⟨hmem, h1, h2, h3⟩ := mem_qualifyingGaps.mp hgq
  refine ⟨h1, ?_, h2⟩
  have hd := hdur g hmem
  have h0 : 0 ≤ g.«end» - g.start := hd ▸ le_trans hmin h3
  linarith

/-- Sortedness/non-overlap survives the qualifying filter. -/
lemma qualifyingGaps_pairwise {gaps : List SilenceGap}
    {startSec endSec minGap : ℚ}
    (hsorted : gaps.Pairwise (fun a b => a.«end» ≤ b.start)) :
    (qualifyingGaps startSec endSec gaps minGap).Pairwise
      (fun a b => a.«end» ≤ b.start) :=
  hsorted.sublist (List.filter_sublist gaps)

/-- Every span of `getActiveSegments` lies inside the window and is
non-degenerate. -/
lemma getActiveSegments_bounds {gaps : List SilenceGap}
    {startSec endSec minGap : ℚ}
    (hsorted : gaps.Pairwise (fun a b => a.«end» ≤ b.start))
    (hdur : ∀ g ∈ gaps, g.duration = g.«end» - g.start) (hmin : 0 ≤ minGap)
    (hwin : startSec < endSec) :
    ∀ s ∈ getActiveSegments startSec endSec gaps minGap,
      startSec ≤ s.start ∧ s.start < s.«end» ∧ s.«end» ≤ endSec := by
  intro s hs
  rw [getActiveSegments] at hs
  split at hs
  · simp only [List.mem_singleton] at hs
    subst hs
    exact ⟨le_refl _, hwin, le_refl _⟩
  · exact walkGaps_bounds endSec _ startSec (qualifyingGaps_wf hdur hmin)
      (qualifyingGaps_pairwise hsorted) s hs

/-- The spans of `getActiveSegments` are ordered and pairwise
non-overlapping. -/
lemma getActiveSegments_pairwise {gaps : List SilenceGap}
    {startSec endSec minGap : ℚ}
    (hsorted : gaps.Pairwise (fun a b => a.«end» ≤ b.start))
    (hdur : ∀ g ∈ gaps, g.duration = g.«end» - g.start) (hmin : 0 ≤ minGap) :
    (getActiveSegments startSec endSec gaps minGap).Pairwise
      (fun a b => a.«end» ≤ b.start) := by
  rw [getActiveSegments]
  split
  · simp
  · exact walkGaps_pairwise endSec _ startSec (qualifyingGaps_wf hdur hmin)
      (qualifyingGaps_pairwise hsorted)

/-- Partition: a time point lies in a returned span or in a qualifying gap
exactly when it lies in the (half-open) window. -/
lemma getActiveSegments_mem_iff {gaps : List SilenceGap}
    {startSec endSec minGap : ℚ}
    (hsorted : gaps.Pairwise (fun a b => a.«end» ≤ b.start))
    (hdur : ∀ g ∈ gaps, g.duration = g.«end» - g.start) (hmin : 0 ≤ minGap) :
    ∀ x : ℚ,
      (inSpans (getActiveSegments startSec endSec gaps minGap) x ∨
        inGaps (qualifyingGaps startSec endSec gaps minGap) x) ↔
        (startSec ≤ x ∧ x < endSec) := by
  intro x
  rw [getActiveSegments]
  split
  · rename_i hempty
    rw [List.isEmpty_iff] at hempty
    rw [hempty]
    simp only [inSpans, inGaps, List.mem_singleton, List.not_mem_nil]
    constructor
    · rintro (⟨s, rfl, hx⟩ | ⟨g, hg, _⟩)
      · exact hx
      · exact hg.elim
    · intro hx
      exact Or.inl ⟨⟨startSec, endSec⟩, rfl, hx⟩
  · exact walkGaps_mem_iff endSec _ startSec (qualifyingGaps_wf hdur hmin)
      (qualifyingGaps_pairwise hsorted) x

/-- Returned spans never overlap the qualifying gaps. -/
lemma getActiveSegments_disjoint {gaps : List SilenceGap}
    {startSec endSec minGap : ℚ}
    (hsorted : gaps.Pairwise (fun a b => a.«end» ≤ b.start))
    (hdur : ∀ g ∈ gaps, g.duration = g.«end» - g.start) (hmin : 0 ≤ minGap) :
    ∀ s ∈ getActiveSegments startSec endSec gaps minGap,
      ∀ g ∈ qualifyingGaps startSec endSec gaps minGap,
        g.«end» ≤ s.start ∨ s.«end» ≤ g.start := by
  intro s hs g hg
  rw [getActiveSegments] at hs
  split at hs
  · rename_i hempty
    rw [List.isEmpty_iff] at hempty
    rw [hempty] at hg
    exact absurd hg (List.not_mem_nil g)
  · exact walkGaps_disjoint endSec _ startSec (qualifyingGaps_wf hdur hmin)
      (qualifyingGaps_pairwise hsorted) s hs g hg

/-- The result is empty exactly when the qualifying gaps cover the whole
(half-open) window. -/
lemma getActiveSegments_eq_nil_iff {gaps : List SilenceGap}
    {startSec endSec minGap : ℚ}
    (hsorted : gaps.Pairwise (fun a b => a.«end» ≤ b.start))
    (hdur : ∀ g ∈ gaps, g.duration = g.«end» - g.start) (hmin : 0 ≤ minGap)
    (hwin : startSec < endSec) :
    getActiveSegments startSec endSec gaps minGap = [] ↔
      ∀ x : ℚ, startSec ≤ x → x < endSec →
        inGaps (qualifyingGaps startSec endSec gaps minGap) x := by
  constructor
  · intro hres x hx1 hx2
    have := (getActiveSegments_mem_iff hsorted hdur hmin x).mpr ⟨hx1, hx2⟩
    rcases this with h | h
    · rw [hres] at h
      rcases h with ⟨s, hs, _⟩
      exact absurd hs (List.not_mem_nil s)
    · exact h
  · intro hcov
    by_contra hne
    obtain ⟨s, hs⟩ := List.exists_mem_of_ne_nil _ hne
    have hb := getActiveSegments_bounds hsorted hdur hmin hwin s hs
    obtain ⟨g, hg, hgx⟩ := hcov s.start hb.1
      (lt_of_lt_of_le hb.2.1 hb.2.2)
    rcases getActiveSegments_disjoint hsorted hdur hmin s hs g hg with h | h
    · exact absurd hgx.2 (not_lt.mpr h)
    · exact absurd (lt_of_lt_of_le hb.2.1 (le_trans h hgx.1))
        (lt_irrefl s.start)

/-- The claim's concrete scenario. -/
lemma getActiveSegments_example :
    getActiveSegments 10 20 [⟨12.0, 14.5, 2.5⟩] 0.8 =
      [⟨10, 12.0⟩, ⟨14.5, 20⟩] := by
  norm_num [getActiveSegments, qualifyingGaps, walkGaps, List.filter,
    List.isEmpty]

/-- A single qualifying gap equal to the whole window: empty result. -/
lemma getActiveSegments_whole_window :
    getActiveSegments 10 20 [⟨10, 20, 10⟩] 0.8 = [] := by
  norm_num [getActiveSegments, qualifyingGaps, walkGaps, List.filter,
    List.isEmpty]

/-- C1: for every sorted, non-overlapping list of `SilenceGap` records
(with consistent `duration`) and every window `[startSec, endSec]`,
`getActiveSegments` returns spans such that the union of the spans plus the
union of the qualifying gaps exactly reconstructs the window, no two
returned spans overlap, the no-qualifying-gap case yields the single
unmodified window span, and the concrete scenario
(gaps `[{12.0,14.5,2.5}]`, window `[10,20]`, threshold `0.8`) yields
`[{10,12.0},{14.5,20}]`. -/
theorem c1_getActiveSegments_partition
    (gaps : List SilenceGap) (startSec endSec minGap : ℚ)
    (hsorted : gaps.Pairwise (fun a b => a.«end» ≤ b.start))
    (hdur : ∀ g ∈ gaps, g.duration = g.«end» - g.start)
    (hmin : 0 ≤ minGap)
    (hwin : startSec ≤ endSec) :
    (∀ x : ℚ,
      (inSpans (getActiveSegments startSec endSec gaps minGap) x ∨
        inGaps (qualifyingGaps startSec endSec gaps minGap) x) ↔
        (startSec ≤ x ∧ x < endSec)) ∧
    (getActiveSegments startSec endSec gaps minGap).Pairwise
      (fun a b => a.«end» ≤ b.start) ∧
    (qualifyingGaps startSec endSec gaps minGap = [] →
      getActiveSegments startSec endSec gaps minGap =
        [⟨startSec, endSec⟩]) ∧
    getActiveSegments 10 20 [⟨12.0, 14.5, 2.5⟩] 0.8 =
      [⟨10, 12.0⟩, ⟨14.5, 20⟩] := by
  refine ⟨getActiveSegments_mem_iff hsorted hdur hmin,
    getActiveSegments_pairwise hsorted hdur hmin, ?_,
    getActiveSegments_example⟩
  intro hempty
  rw [getActiveSegments, hempty]
  simp

/-- Witness for C1 at the claim's concrete scenario. -/
theorem c1_getActiveSegments_partition_witness :
    (∀ x : ℚ,
      (inSpans (getActiveSegments 10 20 [⟨12.0, 14.5, 2.5⟩] 0.8) x ∨
        inGaps (qualifyingGaps 10 20 [⟨12.0, 14.5, 2.5⟩] 0.8) x) ↔
        ((10 : ℚ) ≤ x ∧ x < 20)) ∧
    (getActiveSegments 10 20 [⟨12.0, 14.5, 2.5⟩] 0.8).Pairwise
      (fun a b => a.«end» ≤ b.start) ∧
    (qualifyingGaps 10 20 [⟨12.0, 14.5, 2.5⟩] 0.8 = [] →
      getActiveSegments 10 20 [⟨12.0, 14.5, 2.5⟩] 0.8 = [⟨10, 20⟩]) ∧
    getActiveSegments 10 20 [⟨12.0, 14.5, 2.5⟩] 0.8 =
      [⟨10, 12.0⟩, ⟨14.5, 20⟩] :=
  c1_getActiveSegments_partition [⟨12.0, 14.5, 2.5⟩] 10 20 0.8
    (by simp) (by intro g hg; simp at hg; subst hg; norm_num)
    (by norm_num) (by norm_num)

/-- C10: every returned span satisfies
`startSec ≤ span.start < span.end ≤ endSec`, spans appear in strictly
increasing order, and the result is empty exactly when the qualifying gaps
cover the whole window — e.g. a single qualifying gap equal to the window
yields the empty list, so callers cannot assume a non-empty result. -/
theorem c10_getActiveSegments_span_invariants
    (gaps : List SilenceGap) (startSec endSec minGap : ℚ)
    (hsorted : gaps.Pairwise (fun a b => a.«end» ≤ b.start))
    (hdur : ∀ g ∈ gaps, g.duration = g.«end» - g.start)
    (hmin : 0 ≤ minGap)
    (hwin : startSec < endSec) :
    (∀ s ∈ getActiveSegments startSec endSec gaps minGap,
      startSec ≤ s.start ∧ s.start < s.«end» ∧ s.«end» ≤ endSec) ∧
    (getActiveSegments startSec endSec gaps minGap).Pairwise
      (fun a b => a.start < b.start) ∧
    (getActiveSegments startSec endSec gaps minGap = [] ↔
      ∀ x : ℚ, startSec ≤ x → x < endSec →
        inGaps (qualifyingGaps startSec endSec gaps minGap) x) ∧
    getActiveSegments 10 20 [⟨10, 20, 10⟩] 0.8 = [] := by
  refine ⟨getActiveSegments_bounds hsorted hdur hmin hwin, ?_,
    getActiveSegments_eq_nil_iff hsorted hdur hmin hwin,
    getActiveSegments_whole_window⟩
  exact (getActiveSegments_pairwise hsorted hdur hmin).imp_of_mem
    (fun ha _ hr =>
      lt_of_lt_of_le (getActiveSegments_bounds hsorted hdur hmin hwin _
        ha).2.1 hr)

/-- Witness for C10 at the whole-window-gap scenario. -/
theorem c10_getActiveSegments_span_invariants_witness :
    (∀ s ∈ getActiveSegments 10 20 [⟨10, 20, 10⟩] 0.8,
      (10 : ℚ) ≤ s.start ∧ s.start < s.«end» ∧ s.«end» ≤ 20) ∧
    (getActiveSegments 10 20 [⟨10, 20, 10⟩] 0.8).Pairwise
      (fun a b => a.start < b.start) ∧
    (getActiveSegments 10 20 [⟨10, 20, 10⟩] 0.8 = [] ↔
      ∀ x : ℚ, (10 : ℚ) ≤ x → x < 20 →
        inGaps (qualifyingGaps 10 20 [⟨10, 20, 10⟩] 0.8) x) ∧
    getActiveSegments 10 20 [⟨10, 20, 10⟩] 0.8 = [] :=
  c10_getActiveSegments_span_invariants [⟨10, 20, 10⟩] 10 20 0.8
    (by simp) (by intro g hg; simp at hg; subst hg; norm_num)
    (by norm_num) (by norm_num)

/-! ## Highlight Selector (`src/lib/ai-analyze.ts`)

`analyzeHighlights` posts the transcript to the AI service and converts the
parsed JSON response (`result.clips.map((c, i) => ...)`, lines 125-152) into
`Clip` records. The HTTP call and JSON parsing are outside the embedding; the
conversion of the parsed items is modelled exactly. Since `JSON.parse`
performs no validation, the raw `emotional_arc` field at runtime is an
arbitrary string or absent, which is modelled as `Option String`; the
source's `c.story_meta.emotional_arc || 'surprise'` falls back exactly on the
JS-falsy string values (absent or empty). -/

/-- Clip status enum (`src/types/project.ts`). -/
inductive ClipStatus where
  | pending
  | extracted
  | rendered
  | storyComposed
  | uploaded
deriving DecidableEq, Repr

/-- `StoryMeta` from `src/types/project.ts`. `emotionalArc` is a string at
runtime (the TS union annotation is not enforced on parsed JSON). -/
structure StoryMeta where
  hook : String
  context : String
  payoffFrame : String
  emotionalArc : String
  shareHook : String
deriving DecidableEq, Repr

/-- Raw `story_meta` item of the parsed AI response (`StoryMetaRaw` in
`ai-analyze.ts`). `emotional_arc` may be absent or any string. -/
structure StoryMetaRaw where
  hook : String
  context : String
  payoff_frame : String
  emotional_arc : Option String
  share_hook : String
deriving DecidableEq, Repr

/-- One raw item of the parsed AI response (`HighlightResult.clips[i]`). -/
structure RawClip where
  title : String
  description : String
  start_sec : ℚ
  end_sec : ℚ
  viral_score : ℚ
  reason : String
  tags : Option (List String)
  story_meta : Option StoryMetaRaw
deriving DecidableEq, Repr

/-- `Clip` record (`src/types/project.ts`). Optional artifact-path fields not
read by the verified functions (`sourcePath`, `hookingPath`, `captionEdits`)
are omitted. -/
structure Clip where
  id : String
  projectId : String
  title : String
  description : String
  startSec : ℚ
  endSec : ℚ
  viralScore : ℚ
  reason : String
  tags : List String
  templateId : String
  renderedPath : Option String
  storyPath : Option String
  storyMeta : Option StoryMeta
  status : ClipStatus
deriving DecidableEq, Repr

/-- JS `v || d` for a string-or-absent value: falls back on `undefined` and
on the empty string (the JS-falsy strings), otherwise keeps `v`. -/
def jsStringOr (v : Option String) (d : String) : String :=
  match v with
  | none => d
  | some s => if s = "" then d else s

/-- The per-item conversion of `analyzeHighlights`
(`ai-analyze.ts` lines 125-152): clamp the score with
`Math.min(10, Math.max(1, c.viral_score))`, default the tags, fix the
template and status, build the 1-based id, and attach story metadata when
present. -/
def convertClip (projectId : String) (i : Nat) (c : RawClip) : Clip :=
  let base : Clip :=
    { id := projectId ++ "-clip-" ++ toString (i + 1)
      projectId := projectId
      title := c.title
      description := c.description
      startSec := c.start_sec
      endSec := c.end_sec
      viralScore := min 10 (max 1 c.viral_score)
      reason := c.reason
      tags := c.tags.getD []
      templateId := "sandpaper"
      renderedPath := none
      storyPath := none
      storyMeta := none
      status := ClipStatus.pending }
  match c.story_meta with
  | none => base
  | some sm =>
      { base with
        storyMeta := some
          { hook := sm.hook
            context := sm.context
            payoffFrame := sm.payoff_frame
            emotionalArc := jsStringOr sm.emotional_arc "surprise"
            shareHook := sm.share_hook } }

/-- `result.clips.map((c, i) => ...)` with its running index. -/
def convertClipsFrom (projectId : String) : Nat → List RawClip → List Clip
  | _, [] => []
  | i, c :: cs => convertClip projectId i c :: convertClipsFrom projectId (i + 1) cs

/-- The full conversion performed by `analyzeHighlights` on the parsed
response. -/
def analyzeHighlightsClips (projectId : String) (rawClips : List RawClip) :
    List Clip :=
  convertClipsFrom projectId 0 rawClips

/-- The conversion preserves the number of items. -/
lemma convertClipsFrom_length (projectId : String) :
    ∀ (k : Nat) (l : List RawClip),
      (convertClipsFrom projectId k l).length = l.length := by
  intro k l
  induction l generalizing k with
  | nil => rfl
  | cons c cs ih => simp [convertClipsFrom, ih]

/-- The `i`-th converted clip is the conversion of the `i`-th raw item at
index `k + i`. -/
lemma convertClipsFrom_get (projectId : String) :
    ∀ (k : Nat) (l : List RawClip) (i : Nat) (hi : i < l.length)
      (ho : i < (convertClipsFrom projectId k l).length),
      (convertClipsFrom projectId k l).get ⟨i, ho⟩ =
        convertClip projectId (k + i) (l.get ⟨i, hi⟩) := by
  intro k l
  induction l generalizing k with
  | nil => intro i hi _; exact absurd hi (Nat.not_lt_zero i)
  | cons c cs ih =>
      intro i hi ho
      cases i with
      | zero => simp [convertClipsFrom]
      | succ j =>
          simp only [convertClipsFrom, List.get_cons_succ]
          rw [ih (k + 1) j (Nat.lt_of_succ_lt_succ hi)]
          congr 1
          omega

/-- C5: each AI response item becomes exactly one `Clip`: the output list has
one clip per item, in order; every clip's `viralScore` is
`min(10, max(1, score))`, hence inside `[1,10]` (`-3 ↦ 1`, `15 ↦ 10`);
`status` is `pending`; `templateId` is the default `sandpaper`; and `id` is
`projectId ++ "-clip-" ++ ordinal` with the 1-based ordinal. -/
theorem c5_analyzeHighlights_clip_fields (projectId : String)
    (rawClips : List RawClip) :
    (analyzeHighlightsClips projectId rawClips).length = rawClips.length ∧
    (∀ (i : Nat) (hi : i < rawClips.length)
      (ho : i < (analyzeHighlightsClips projectId rawClips).length),
      (analyzeHighlightsClips projectId rawClips).get ⟨i, ho⟩ =
        convertClip projectId i (rawClips.get ⟨i, hi⟩)) ∧
    (∀ (i : Nat) (c : RawClip),
      (convertClip projectId i c).viralScore = min 10 (max 1 c.viral_score) ∧
      1 ≤ (convertClip projectId i c).viralScore ∧
      (convertClip projectId i c).viralScore ≤ 10 ∧
      (convertClip projectId i c).status = ClipStatus.pending ∧
      (convertClip projectId i c).templateId = "sandpaper" ∧
      (convertClip projectId i c).id =
        projectId ++ "-clip-" ++ toString (i + 1)) ∧
    (∀ (i : Nat) (c : RawClip), c.viral_score = -3 →
      (convertClip projectId i c).viralScore = 1) ∧
    (∀ (i : Nat) (c : RawClip), c.viral_score = 15 →
      (convertClip projectId i c).viralScore = 10) := by
  refine ⟨convertClipsFrom_length projectId 0 rawClips, ?_, ?_, ?_, ?_⟩
  · intro i hi ho
    have := convertClipsFrom_get projectId 0 rawClips i hi ho
    simpa using this
  · intro i c
    have hfields :
        (convertClip projectId i c).viralScore = min 10 (max 1 c.viral_score) ∧
        (convertClip projectId i c).status = ClipStatus.pending ∧
        (convertClip projectId i c).templateId = "sandpaper" ∧
        (convertClip projectId i c).id =
          projectId ++ "-clip-" ++ toString (i + 1) := by
      unfold convertClip
      cases c.story_meta <;> simp
    refine ⟨hfields.1, ?_, ?_, hfields.2.1, hfields.2.2.1, hfields.2.2.2⟩
    · rw [hfields.1]
      exact le_min (by norm_num) (le_max_left 1 c.viral_score)
    · rw [hfields.1]
      exact min_le_left 10 _
  · intro i c hscore
    have : (convertClip projectId i c).viralScore =
        min 10 (max 1 c.viral_score) := by
      unfold convertClip; cases c.story_meta <;> simp
    rw [this, hscore]
    norm_num
  · intro i c hscore
    have : (convertClip projectId i c).viralScore =
        min 10 (max 1 c.viral_score) := by
      unfold convertClip; cases c.story_meta <;> simp
    rw [this, hscore]
    norm_num

/-- A raw item carrying a non-empty but unrecognized emotional arc. -/
def rawClipJoy : RawClip :=
  { title := "t"
    description := "d"
    start_sec := 0
    end_sec := 1
    viral_score := 5
    reason := "r"
    tags := none
    story_meta := some
      { hook := "h"
        context := "c"
        payoff_frame := "pf"
        emotional_arc := some "joy"
        share_hook := "s" } }

/-- C9 counterexample: an AI item whose `emotional_arc` is the unrecognized
non-empty string `"joy"` is attached verbatim — the `||`-fallback does not
replace it with `"surprise"`, contradicting the claim that unrecognized
values default. -/
theorem c9_counterexample_unrecognized_arc_kept :
    (convertClip "p" 0 rawClipJoy).storyMeta =
      some ⟨"h", "c", "pf", "joy", "s"⟩ ∧
    ("joy" : String) ≠ "surprise" ∧
    ("joy" : String) ∉
      ["triumph", "surprise", "heartbreak", "humor", "tension"] := by
  refine ⟨?_, by decide, by decide⟩
  rfl

/-- C9 (amended): story metadata is attached verbatim; `emotionalArc`
defaults to `"surprise"` exactly when the raw arc is absent or the empty
string (the JS-falsy cases); any other string — recognized or not — is kept
verbatim. -/
theorem c9_story_meta_verbatim (projectId : String) (i : Nat) (c : RawClip)
    (sm : StoryMetaRaw) (h : c.story_meta = some sm) :
    (convertClip projectId i c).storyMeta = some
      { hook := sm.hook
        context := sm.context
        payoffFrame := sm.payoff_frame
        emotionalArc := jsStringOr sm.emotional_arc "surprise"
        shareHook := sm.share_hook } ∧
    (sm.emotional_arc = none →
      jsStringOr sm.emotional_arc "surprise" = "surprise") ∧
    (sm.emotional_arc = some "" →
      jsStringOr sm.emotional_arc "surprise" = "surprise") ∧
    (∀ s : String, sm.emotional_arc = some s → s ≠ "" →
      jsStringOr sm.emotional_arc "surprise" = s) := by
  refine ⟨?_, ?_, ?_, ?_⟩
  · unfold convertClip
    rw [h]
  · intro ha; rw [ha]; rfl
  · intro ha; rw [ha]; rfl
  · intro s ha hs
    rw [ha]
    simp [jsStringOr, hs]

/-- Witness for C9 (amended) at the `rawClipJoy` item. -/
theorem c9_story_meta_verbatim_witness :
    (convertClip "p" 0 rawClipJoy).storyMeta = some
      { hook := ("h" : String)
        context := "c"
        payoffFrame := "pf"
        emotionalArc := jsStringOr (some "joy") "surprise"
        shareHook := "s" } ∧
    ((some "joy" : Option String) = none →
      jsStringOr (some "joy") "surprise" = "surprise") ∧
    ((some "joy" : Option String) = some "" →
      jsStringOr (some "joy") "surprise" = "surprise") ∧
    (∀ s : String, (some "joy" : Option String) = some s → s ≠ "" →
      jsStringOr (some "joy") "surprise" = s) :=
  c9_story_meta_verbatim "p" 0 rawClipJoy
    { hook := "h", context := "c", payoff_frame := "pf",
      emotional_arc := some "joy", share_hook := "s" } rfl

/-- Witness for C5 at a concrete two-item response. -/
theorem c5_analyzeHighlights_clip_fields_witness :
    (analyzeHighlightsClips "p" [rawClipJoy, rawClipJoy]).length =
      ([rawClipJoy, rawClipJoy] : List RawClip).length ∧
    (∀ (i : Nat) (hi : i < ([rawClipJoy, rawClipJoy] : List RawClip).length)
      (ho : i < (analyzeHighlightsClips "p" [rawClipJoy, rawClipJoy]).length),
      (analyzeHighlightsClips "p" [rawClipJoy, rawClipJoy]).get ⟨i, ho⟩ =
        convertClip "p" i (([rawClipJoy, rawClipJoy] :
          List RawClip).get ⟨i, hi⟩)) ∧
    (∀ (i : Nat) (c : RawClip),
      (convertClip "p" i c).viralScore = min 10 (max 1 c.viral_score) ∧
      1 ≤ (convertClip "p" i c).viralScore ∧
      (convertClip "p" i c).viralScore ≤ 10 ∧
      (convertClip "p" i c).status = ClipStatus.pending ∧
      (convertClip "p" i c).templateId = "sandpaper" ∧
      (convertClip "p" i c).id = "p" ++ "-clip-" ++ toString (i + 1)) ∧
    (∀ (i : Nat) (c : RawClip), c.viral_score = -3 →
      (convertClip "p" i c).viralScore = 1) ∧
    (∀ (i : Nat) (c : RawClip), c.viral_score = 15 →
      (convertClip "p" i c).viralScore = 10) :=
  c5_analyzeHighlights_clip_fields "p" [rawClipJoy, rawClipJoy]

/-! ## Story Compositor (`src/lib/story-composer.ts`)

`composeStory(projectId, clip)` is modelled as a pure function over an
environment describing the outcome of its external effects (file existence,
the TTS call, the ffmpeg invocations) together with the list of
intermediate/output files present on disk when it returns or throws. File
paths are relative to the per-project `story/` directory. The probed
narration duration (`getDuration`) is supplied by the environment.
`0.4` and `0.5` are exact in the rationals (`2/5`, `1/2`). -/

/-- `ACT1_TARGET_SEC` (`story-composer.ts` line 9). -/
def ACT1_TARGET_SEC : ℚ := 4

/-- `ACT2_TARGET_SEC` (`story-composer.ts` line 10). -/
def ACT2_TARGET_SEC : ℚ := 4

/-- `hookDuration = Math.min(ACT1_TARGET_SEC, ttsDuration * 0.4)`
(`story-composer.ts` line 62). -/
def hookDurationOf (ttsDuration : ℚ) : ℚ :=
  min ACT1_TARGET_SEC (ttsDuration * 0.4)

/-- `contextDuration = ttsDuration - contextStart` with
`contextStart = hookDuration` (`story-composer.ts` lines 63-64). -/
def contextDurationOf (ttsDuration : ℚ) : ℚ :=
  ttsDuration - hookDurationOf ttsDuration

/-- `act1Duration = Math.max(ACT1_TARGET_SEC, hookDuration + 0.5)`
(`story-composer.ts` line 86). -/
def act1DurationFrom (hookDuration : ℚ) : ℚ :=
  max ACT1_TARGET_SEC (hookDuration + 0.5)

/-- `act2Duration = Math.max(ACT2_TARGET_SEC, contextDuration + 0.5)`
(`story-composer.ts` line 93). -/
def act2DurationFrom (contextDuration : ℚ) : ℚ :=
  max ACT2_TARGET_SEC (contextDuration + 0.5)

/-- The variant in `template-renderer.ts` line 462 additionally caps Act 2:
`Math.min(8, Math.max(ACT2_TARGET_SEC, contextDuration + 0.5))`. -/
def act2DurationFromV (contextDuration : ℚ) : ℚ :=
  min 8 (act2DurationFrom contextDuration)

/-- `${prefix}_tts_combined.wav`. -/
def ttsWavPath (id : String) : String := id ++ "_tts_combined.wav"

/-- `${prefix}_hook.wav`. -/
def hookWavPath (id : String) : String := id ++ "_hook.wav"

/-- `${prefix}_context.wav`. -/
def contextWavPath (id : String) : String := id ++ "_context.wav"

/-- `${prefix}_act1.mp4`. -/
def act1Path (id : String) : String := id ++ "_act1.mp4"

/-- `${prefix}_act2.mp4`. -/
def act2Path (id : String) : String := id ++ "_act2.mp4"

/-- `${prefix}_act3.mp4`. -/
def act3Path (id : String) : String := id ++ "_act3.mp4"

/-- `${prefix}_concat.txt`. -/
def concatListPath (id : String) : String := id ++ "_concat.txt"

/-- `${prefix}_story.mp4` — the final output. -/
def storyOutputPath (id : String) : String := id ++ "_story.mp4"

/-- Act 1's filter script, `outputPath.replace('.mp4', '_filter.txt')`
(first occurrence; clip ids are assumed not to contain `.mp4`). -/
def act1FilterPath (id : String) : String := id ++ "_act1_filter.txt"

/-- Act 2's filter script. -/
def act2FilterPath (id : String) : String := id ++ "_act2_filter.txt"

/-- The `tempFiles` cleanup list of `composeStory`
(`story-composer.ts` lines 125-129). -/
def tempFilesOf (id : String) : List String :=
  [ttsWavPath id, hookWavPath id, contextWavPath id,
   act1Path id, act2Path id, act3Path id, concatListPath id]

/-- Error taxonomy of the story compositor: the `MissingStoryMetaError` and
`MissingAssetError` throw sites (`story-composer.ts` lines 40-47), the
speech-synthesis (`generateHook`) failure, and non-zero ffmpeg exits. -/
inductive StoryError where
  | missingStoryMeta
  | missingAsset
  | upstream (stage : String)
  | processExit (stage : String)
deriving DecidableEq, Repr

/-- Environment for one `composeStory` run: which prerequisites exist and
which external calls succeed, plus the probed narration duration. -/
structure StoryEnv where
  renderedExists : Bool
  ttsOk : Bool
  ttsDuration : ℚ
  splitOk : Bool
  act1Ok : Bool
  act2Ok : Bool
  act3Ok : Bool
  concatOk : Bool
deriving DecidableEq, Repr

/-- Successful result of `composeStory`: the returned path and the computed
split/act durations. -/
structure StoryOutcome where
  outputPath : String
  hookDuration : ℚ
  contextDuration : ℚ
  act1Duration : ℚ
  act2Duration : ℚ
deriving DecidableEq, Repr

/-- `composeStory(projectId, clip)` (`story-composer.ts` lines 30-136):
check `storyMeta`, check the rendered clip, synthesize combined narration
(`generateHook` writes the file only on success), split it at
`min(4, 0.4·d)`, build the three acts (each act build writes its filter
script, then deletes it only after its ffmpeg call succeeds), write the
concat manifest, concatenate, then unlink the `tempFiles` list. The second
component is the set of files on disk at return/throw; there is no
`try/finally`, so a mid-run throw skips the cleanup block. -/
def composeStory (env : StoryEnv) (clip : Clip) :
    Except StoryError StoryOutcome × List String :=
  match clip.storyMeta with
  | none => (Except.error StoryError.missingStoryMeta, [])
  | some _ =>
    if env.renderedExists = false then
      (Except.error StoryError.missingAsset, [])
    else if env.ttsOk = false then
      (Except.error (StoryError.upstream "generateHook"), [])
    else
      let hookDuration := hookDurationOf env.ttsDuration
      let contextDuration := contextDurationOf env.ttsDuration
      let files0 := [ttsWavPath clip.id]
      if env.splitOk = false then
        (Except.error (StoryError.processExit "split"), files0)
      else
        let files1 := files0 ++ [hookWavPath clip.id, contextWavPath clip.id]
        if env.act1Ok = false then
          (Except.error (StoryError.processExit "act1"),
            files1 ++ [act1FilterPath clip.id])
        else
          let files2 := files1 ++ [act1Path clip.id]
          if env.act2Ok = false then
            (Except.error (StoryError.processExit "act2"),
              files2 ++ [act2FilterPath clip.id])
          else
            let files3 := files2 ++ [act2Path clip.id]
            if env.act3Ok = false then
              (Except.error (StoryError.processExit "act3"), files3)
            else
              let files4 := files3 ++ [act3Path clip.id]
              let files5 := files4 ++ [concatListPath clip.id]
              if env.concatOk = false then
                (Except.error (StoryError.processExit "concat"), files5)
              else
                let files6 := files5 ++ [storyOutputPath clip.id]
                let filesFinal :=
                  files6.filter (fun f => !((tempFilesOf clip.id).contains f))
                (Except.ok
                  { outputPath := storyOutputPath clip.id
                    hookDuration := hookDuration
                    contextDuration := contextDuration
                    act1Duration := act1DurationFrom hookDuration
                    act2Duration := act2DurationFrom contextDuration },
                  filesFinal)

/-- C4: for every narration of non-negative total duration `d`, the
hook/context split point is `min(4, 0.4·d)`, is at most `d` (so the context
portion is non-negative), and each act's duration is at least its configured
minimum target: Act 1 ≥ 4 and Act 2 ≥ 4 (in both the `story-composer.ts`
formula and the `template-renderer.ts` capped variant). -/
theorem c4_split_and_act_duration_bounds (d : ℚ) (hd : 0 ≤ d) :
    hookDurationOf d = min 4 (0.4 * d) ∧
    hookDurationOf d ≤ d ∧
    0 ≤ contextDurationOf d ∧
    4 ≤ act1DurationFrom (hookDurationOf d) ∧
    4 ≤ act2DurationFrom (contextDurationOf d) ∧
    4 ≤ act2DurationFromV (contextDurationOf d) := by
  have hsplit : hookDurationOf d = min 4 (0.4 * d) := by
    rw [hookDurationOf, ACT1_TARGET_SEC, mul_comm]
  have hle : hookDurationOf d ≤ d := by
    rw [hsplit]
    have h1 : min 4 (0.4 * d) ≤ 0.4 * d := min_le_right _ _
    have h2 : (0.4 : ℚ) * d ≤ d := by linarith
    linarith
  refine ⟨hsplit, hle, ?_, ?_, ?_, ?_⟩
  · rw [contextDurationOf]
    linarith
  · exact le_max_left _ _
  · exact le_max_left _ _
  · exact le_min (by norm_num) (le_max_left _ _)

/-- Witness for C4 at `d = 5`. -/
theorem c4_split_and_act_duration_bounds_witness :
    hookDurationOf 5 = min 4 (0.4 * 5) ∧
    hookDurationOf 5 ≤ 5 ∧
    0 ≤ contextDurationOf 5 ∧
    4 ≤ act1DurationFrom (hookDurationOf 5) ∧
    4 ≤ act2DurationFrom (contextDurationOf 5) ∧
    4 ≤ act2DurationFromV (contextDurationOf 5) :=
  c4_split_and_act_duration_bounds 5 (by norm_num)

/-- A concrete clip carrying story metadata. -/
def clipWithMeta : Clip :=
  { id := "p-clip-1"
    projectId := "p"
    title := "t"
    description := "d"
    startSec := 10
    endSec := 40
    viralScore := 8
    reason := "r"
    tags := []
    templateId := "sandpaper"
    renderedPath := none
    storyPath := none
    storyMeta := some
      { hook := "h", context := "c", payoffFrame := "pf",
        emotionalArc := "surprise", shareHook := "s" }
    status := ClipStatus.rendered }

/-- The same clip with its story metadata absent. -/
def clipNoMeta : Clip := { clipWithMeta with storyMeta := none }

/-- An environment where everything succeeds (narration of 5 seconds). -/
def envAllOk : StoryEnv :=
  { renderedExists := true, ttsOk := true, ttsDuration := 5,
    splitOk := true, act1Ok := true, act2Ok := true, act3Ok := true,
    concatOk := true }

/-- C3: `composeStory` fails with `MissingStoryMetaError` whenever
`clip.storyMeta` is absent and with `MissingAssetError` whenever the
rendered clip is absent; both checks run before any artifact is written, so
in each case no output file (indeed no file at all) is produced. -/
theorem c3_composeStory_precondition_checks (env : StoryEnv) (clip : Clip) :
    (clip.storyMeta = none →
      composeStory env clip = (Except.error StoryError.missingStoryMeta, [])) ∧
    (clip.storyMeta ≠ none → env.renderedExists = false →
      composeStory env clip = (Except.error StoryError.missingAsset, [])) := by
  constructor
  · intro h
    rw [composeStory, h]
  · intro h1 h2
    rw [composeStory]
    cases hm : clip.storyMeta with
    | none => exact absurd hm h1
    | some sm => rw [h2]; rfl

/-- Witness for C3 at the concrete clips. -/
theorem c3_composeStory_precondition_checks_witness :
    (clipNoMeta.storyMeta = none →
      composeStory envAllOk clipNoMeta =
        (Except.error StoryError.missingStoryMeta, [])) ∧
    (clipNoMeta.storyMeta ≠ none →
      envAllOk.renderedExists = false →
      composeStory envAllOk clipNoMeta =
        (Except.error StoryError.missingAsset, [])) :=
  c3_composeStory_precondition_checks envAllOk clipNoMeta

/-- An environment where the Act 1 ffmpeg invocation fails. -/
def envAct1Fails : StoryEnv := { envAllOk with act1Ok := false }

/-- C6 counterexample: when the Act 1 build fails, `composeStory` throws
with the combined narration, both split narration files and Act 1's filter
script still on disk — the cleanup block runs only on the success path, so
intermediates are not deleted on every failure path. -/
theorem c6_counterexample_act1_failure_leaks :
    composeStory envAct1Fails clipWithMeta =
      (Except.error (StoryError.processExit "act1"),
        [ttsWavPath "p-clip-1", hookWavPath "p-clip-1",
         contextWavPath "p-clip-1", act1FilterPath "p-clip-1"]) ∧
    ttsWavPath "p-clip-1" ∈ (composeStory envAct1Fails clipWithMeta).2 := by
  constructor
  · rfl
  · rw [composeStory]
    simp [clipWithMeta, envAct1Fails, envAllOk]

/-- C6 (amended): on the success path every intermediate artifact (combined
narration, split hook/context files, three per-act files, concat manifest)
is deleted and only the story output remains; but on failure paths after the
intermediates are created (e.g. an act build failing) `composeStory` throws
without running the cleanup, leaving them on disk. -/
theorem c6_cleanup_only_on_success (env : StoryEnv) (clip : Clip)
    (sm : StoryMeta) (h : clip.storyMeta = some sm)
    (h1 : env.renderedExists = true) (h2 : env.ttsOk = true)
    (h3 : env.splitOk = true) (h4 : env.act1Ok = true)
    (h5 : env.act2Ok = true) (h6 : env.act3Ok = true)
    (h7 : env.concatOk = true) :
    (∃ out, (composeStory env clip).1 = Except.ok out ∧
      out.outputPath = storyOutputPath clip.id) ∧
    (∀ f ∈ tempFilesOf clip.id, f ∉ (composeStory env clip).2) ∧
    ttsWavPath "p-clip-1" ∈ (composeStory envAct1Fails clipWithMeta).2 := by
  have hunfold : composeStory env clip =
      (Except.ok
        { outputPath := storyOutputPath clip.id
          hookDuration := hookDurationOf env.ttsDuration
          contextDuration := contextDurationOf env.ttsDuration
          act1Duration := act1DurationFrom (hookDurationOf env.ttsDuration)
          act2Duration := act2DurationFrom (contextDurationOf env.ttsDuration) },
        ([ttsWavPath clip.id] ++ [hookWavPath clip.id, contextWavPath clip.id]
          ++ [act1Path clip.id] ++ [act2Path clip.id] ++ [act3Path clip.id]
          ++ [concatListPath clip.id] ++ [storyOutputPath clip.id]).filter
          (fun f => !((tempFilesOf clip.id).contains f))) := by
    rw [composeStory, h, h1, h2, h3, h4, h5, h6, h7]
    rfl
  refine ⟨⟨_, by rw [hunfold], rfl⟩, ?_, ?_⟩
  · intro f hf
    rw [hunfold]
    intro hmem
    simp only [List.mem_filter] at hmem
    have hcon : (tempFilesOf clip.id).contains f = true := by simpa using hf
    rw [hcon] at hmem
    exact absurd hmem.2 (by simp)
  · rw [composeStory]
    simp [clipWithMeta, envAct1Fails, envAllOk]

/-- Appending to the same prefix is injective on the suffix. -/
lemma append_left_cancel {a b c : String} (h : a ++ b = a ++ c) : b = c := by
  have hd := congrArg String.data h
  rw [String.data_append, String.data_append] at hd
  exact String.ext (List.append_cancel_left hd)

/-- The story output path never collides with a temp-file path. -/
lemma storyOutputPath_not_temp (id : String) :
    storyOutputPath id ∉ tempFilesOf id := by
  intro h
  simp only [tempFilesOf, storyOutputPath, ttsWavPath, hookWavPath,
    contextWavPath, act1Path, act2Path, act3Path, concatListPath,
    List.mem_cons, List.not_mem_nil, or_false] at h
  rcases h with h | h | h | h | h | h | h <;>
    exact absurd (congrArg String.data (append_left_cancel h)) (by decide)

/-- Witness for C6 (amended) at the all-success environment. -/
theorem c6_cleanup_only_on_success_witness :
    (∃ out, (composeStory envAllOk clipWithMeta).1 = Except.ok out ∧
      out.outputPath = storyOutputPath clipWithMeta.id) ∧
    (∀ f ∈ tempFilesOf clipWithMeta.id,
      f ∉ (composeStory envAllOk clipWithMeta).2) ∧
    ttsWavPath "p-clip-1" ∈ (composeStory envAct1Fails clipWithMeta).2 :=
  c6_cleanup_only_on_success envAllOk clipWithMeta
    { hook := "h", context := "c", payoffFrame := "pf",
      emotionalArc := "surprise", shareHook := "s" }
    rfl rfl rfl rfl rfl rfl rfl rfl

/-! ## Story Compositor variant with silent fallback
(`template-renderer.ts` lines 380-507)

This variant wraps the speech-synthesis call in `try/catch`: on failure it
generates *silent* hook/context WAV files of exactly `ACT1_TARGET_SEC` /
`ACT2_TARGET_SEC` seconds (`anullsrc`, lines 440-449) and continues; Act 2 is
additionally capped at 8 seconds. Narration tracks are modelled with their
duration and a silence flag. -/

/-- A narration WAV written by the variant: its duration (the `-t` / `-ss`
argument; `toFixed(2)` formatting elided — exact on the fallback constants)
and whether it is a silent `anullsrc` track. -/
structure AudioTrack where
  duration : ℚ
  silent : Bool
deriving DecidableEq, Repr

/-- Environment for one variant run; `silentGenOk` is the outcome of the two
`anullsrc` fallback invocations. -/
structure StoryEnvV where
  renderedExists : Bool
  ttsOk : Bool
  ttsDuration : ℚ
  silentGenOk : Bool
  splitOk : Bool
  act1Ok : Bool
  act2Ok : Bool
  act3Ok : Bool
  concatOk : Bool
deriving DecidableEq, Repr

/-- Successful result of the variant: output path, the two narration tracks,
and the act durations. -/
structure StoryOutcomeV where
  outputPath : String
  hookTrack : AudioTrack
  contextTrack : AudioTrack
  act1Duration : ℚ
  act2Duration : ℚ
deriving DecidableEq, Repr

/-- Acts 1-3 plus concat and cleanup of the variant
(`template-renderer.ts` lines 451-506), shared by the synthesized and the
silent-fallback narration branches. -/
def composeActsV (env : StoryEnvV) (id : String)
    (hookTrack contextTrack : AudioTrack) (files : List String) :
    Except StoryError StoryOutcomeV × List String :=
  if env.act1Ok = false then
    (Except.error (StoryError.processExit "act1"), files ++ [act1FilterPath id])
  else
    let files2 := files ++ [act1Path id]
    if env.act2Ok = false then
      (Except.error (StoryError.processExit "act2"),
        files2 ++ [act2FilterPath id])
    else
      let files3 := files2 ++ [act2Path id]
      if env.act3Ok = false then
        (Except.error (StoryError.processExit "act3"), files3)
      else
        let files4 := files3 ++ [act3Path id]
        let files5 := files4 ++ [concatListPath id]
        if env.concatOk = false then
          (Except.error (StoryError.processExit "concat"), files5)
        else
          let files6 := files5 ++ [storyOutputPath id]
          let filesFinal :=
            files6.filter (fun f => !((tempFilesOf id).contains f))
          (Except.ok
            { outputPath := storyOutputPath id
              hookTrack := hookTrack
              contextTrack := contextTrack
              act1Duration := act1DurationFrom hookTrack.duration
              act2Duration := act2DurationFromV contextTrack.duration },
            filesFinal)

/-- `composeStory` variant (`template-renderer.ts` lines 380-507): same
preconditions, then `try { generateTtsQwen } catch { ttsAvailable = false }`;
if TTS succeeded, split the narration at `min(4, 0.4·d)`; otherwise write
silent hook/context tracks of the target durations (4s / 4s) and continue
either way. -/
def composeStoryV (env : StoryEnvV) (clip : Clip) :
    Except StoryError StoryOutcomeV × List String :=
  match clip.storyMeta with
  | none => (Except.error StoryError.missingStoryMeta, [])
  | some _ =>
    if env.renderedExists = false then
      (Except.error StoryError.missingAsset, [])
    else if env.ttsOk then
      let hookDuration := hookDurationOf env.ttsDuration
      let contextDuration := contextDurationOf env.ttsDuration
      let files0 := [ttsWavPath clip.id]
      if env.splitOk = false then
        (Except.error (StoryError.processExit "split"), files0)
      else
        composeActsV env clip.id
          ⟨hookDuration, false⟩ ⟨contextDuration, false⟩
          (files0 ++ [hookWavPath clip.id, contextWavPath clip.id])
    else
      if env.silentGenOk = false then
        (Except.error (StoryError.processExit "silentFallback"), [])
      else
        composeActsV env clip.id
          ⟨ACT1_TARGET_SEC, true⟩ ⟨ACT2_TARGET_SEC, true⟩
          [hookWavPath clip.id, contextWavPath clip.id]

/-- C2: for every clip with story metadata, when the speech-synthesis call
throws, the variant `composeStory` does not abort: it degrades to silent
narration tracks of the configured target durations (4s hook, 4s context)
and still produces the concatenated 3-act output file (which is on disk
after the run, with the intermediates cleaned up). -/
theorem c2_composeStory_silent_fallback (env : StoryEnvV) (clip : Clip)
    (sm : StoryMeta) (h : clip.storyMeta = some sm)
    (h1 : env.renderedExists = true) (h2 : env.ttsOk = false)
    (h3 : env.silentGenOk = true) (h4 : env.act1Ok = true)
    (h5 : env.act2Ok = true) (h6 : env.act3Ok = true)
    (h7 : env.concatOk = true) :
    ∃ out, (composeStoryV env clip).1 = Except.ok out ∧
      out.hookTrack = ⟨ACT1_TARGET_SEC, true⟩ ∧
      out.contextTrack = ⟨ACT2_TARGET_SEC, true⟩ ∧
      out.hookTrack.duration = 4 ∧ out.hookTrack.silent = true ∧
      out.contextTrack.duration = 4 ∧ out.contextTrack.silent = true ∧
      out.outputPath = storyOutputPath clip.id ∧
      out.outputPath ∈ (composeStoryV env clip).2 := by
  have hunfold : composeStoryV env clip =
      composeActsV env clip.id ⟨ACT1_TARGET_SEC, true⟩ ⟨ACT2_TARGET_SEC, true⟩
        [hookWavPath clip.id, contextWavPath clip.id] := by
    rw [composeStoryV, h, h1, h2, h3]
    rfl
  have hacts : composeActsV env clip.id ⟨ACT1_TARGET_SEC, true⟩
      ⟨ACT2_TARGET_SEC, true⟩ [hookWavPath clip.id, contextWavPath clip.id] =
      (Except.ok
        { outputPath := storyOutputPath clip.id
          hookTrack := ⟨ACT1_TARGET_SEC, true⟩
          contextTrack := ⟨ACT2_TARGET_SEC, true⟩
          act1Duration := act1DurationFrom ACT1_TARGET_SEC
          act2Duration := act2DurationFromV ACT2_TARGET_SEC },
        ([hookWavPath clip.id, contextWavPath clip.id] ++ [act1Path clip.id]
          ++ [act2Path clip.id] ++ [act3Path clip.id]
          ++ [concatListPath clip.id] ++ [storyOutputPath clip.id]).filter
          (fun f => !((tempFilesOf clip.id).contains f))) := by
    rw [composeActsV, h4, h5, h6, h7]
    rfl
  refine ⟨_, by rw [hunfold, hacts], rfl, rfl, by norm_num [ACT1_TARGET_SEC],
    rfl, by norm_num [ACT2_TARGET_SEC], rfl, rfl, ?_⟩
  rw [hunfold, hacts]
  refine List.mem_filter.mpr ⟨by simp, ?_⟩
  have hnot := storyOutputPath_not_temp clip.id
  have hc : (tempFilesOf clip.id).contains (storyOutputPath clip.id) = false := by
    simpa using hnot
  rw [hc]
  rfl

/-- Witness for C2 at a concrete TTS-failing environment. -/
theorem c2_composeStory_silent_fallback_witness :
    ∃ out,
      (composeStoryV
        { renderedExists := true, ttsOk := false, ttsDuration := 0,
          silentGenOk := true, splitOk := true, act1Ok := true,
          act2Ok := true, act3Ok := true, concatOk := true }
        clipWithMeta).1 = Except.ok out ∧
      out.hookTrack = ⟨ACT1_TARGET_SEC, true⟩ ∧
      out.contextTrack = ⟨ACT2_TARGET_SEC, true⟩ ∧
      out.hookTrack.duration = 4 ∧ out.hookTrack.silent = true ∧
      out.contextTrack.duration = 4 ∧ out.contextTrack.silent = true ∧
      out.outputPath = storyOutputPath clipWithMeta.id ∧
      out.outputPath ∈
        (composeStoryV
          { renderedExists := true, ttsOk := false, ttsDuration := 0,
            silentGenOk := true, splitOk := true, act1Ok := true,
            act2Ok := true, act3Ok := true, concatOk := true }
          clipWithMeta).2 :=
  c2_composeStory_silent_fallback _ clipWithMeta
    { hook := "h", context := "c", payoffFrame := "pf",
      emotionalArc := "surprise", shareHook := "s" }
    rfl rfl rfl rfl rfl rfl rfl rfl

/-! ## Pipeline Orchestrator (`runPipeline`, `template-renderer.ts` lines
208-348, and `fileReady` from `paths.ts`)

`runPipeline` is modelled as a pure trace generator: given an environment
describing the artifacts already on disk (`fileReady` results) and the data
produced by the successfully-invoked stages, it returns the ordered list of
emitted SSE events and the list of invoked external operations. Stage
failures abort by exception and are not modelled (the claims concern the
caching skip on successful runs). The `data` payload of events is elided.
The detect-silence completion message interpolates a float via
`toFixed(1)`; that formatted fragment is supplied by the environment. -/

/-- An `SSEMessage` (`src/types/pipeline.ts`) as emitted by `runPipeline`:
all its events carry a `stepId`; `progress` is present on `progress` events
only. -/
structure SSE where
  type : String
  stepId : String
  progress : Option Nat
  message : String
deriving DecidableEq, Repr

/-- `Math.round((current / total) * 100)` for `0 ≤ current ≤ total`:
round-half-up in exact arithmetic (the double rounding of the JS quotient is
elided; it can differ only on quotients within one ulp of a half). -/
def jsRound100 (current total : Nat) : Nat :=
  (200 * current + total) / (2 * total)

/-- Environment of one successful pipeline run: cache states and the data
the stages would produce. -/
structure PipelineEnv where
  urlValid : Bool
  downloadEvents : List (Nat × String)
  videoTitle : String
  audioReady : Bool
  transcriptReady : Bool
  transcribeEvents : List (Nat × String)
  segmentCount : Nat
  language : String
  silenceGapCount : Nat
  silenceTotalStr : String
  clipTitles : List String
  anyStoryMeta : Bool
  storyTitles : List String
  storyComposedCount : Nat
deriving DecidableEq, Repr

/-- Result of a run: the emitted events, the external operations that were
actually invoked, and whether the run completed. -/
structure PipelineRun where
  events : List SSE
  invoked : List String
  completed : Bool
deriving DecidableEq, Repr

/-- The per-clip progress events of the extract-clips / render /
story-compose loops: `progress = Math.round((current/total)*100)`, message
`` `${verb}${title} (${current}/${total})` ``. -/
def perClipEvents (stepId verb : String) (titles : List String) : List SSE :=
  titles.enum.map fun p =>
    ⟨"progress", stepId, some (jsRound100 (p.1 + 1) titles.length),
      verb ++ p.2 ++ " (" ++ toString (p.1 + 1) ++ "/" ++
        toString titles.length ++ ")"⟩

/-- `runPipeline(projectId, url, onProgress)`
(`template-renderer.ts` lines 208-348): the ordered stage sequence with its
exact emitted events. The extract-audio stage checks
`fileReady(paths.audio)` and skips `extractAudio` without emitting any
further event; the transcribe stage checks `fileReady(paths.transcript)`
and, when cached, emits a synthetic `progress 100 / "Using cached
transcript"` event instead of invoking `transcribe`. -/
def runPipelineModel (env : PipelineEnv) : PipelineRun :=
  let e1 : List SSE :=
    [⟨"progress", "download", some 0, "Starting download..."⟩]
  if env.urlValid = false then ⟨e1, [], false⟩
  else
    let dlEvents := env.downloadEvents.map fun pm =>
      (⟨"progress", "download", some pm.1, pm.2⟩ : SSE)
    let e2 := e1 ++ dlEvents ++
      [⟨"step-complete", "download", none, "Downloaded: " ++ env.videoTitle⟩]
    let e3 := e2 ++
      [⟨"progress", "extract-audio", some 0,
        "Extracting audio (16kHz mono)..."⟩]
    let inv1 := ["downloadVideo"] ++
      (if env.audioReady then [] else ["extractAudio"])
    let e4 := e3 ++ [⟨"step-complete", "extract-audio", none,
      "Audio extracted"⟩]
    let e5 := e4 ++
      [⟨"progress", "transcribe", some 0, "Transcribing with Whisper..."⟩]
    let transcribeBlock : List SSE × List String :=
      if env.transcriptReady then
        ([⟨"progress", "transcribe", some 100, "Using cached transcript"⟩],
          [])
      else
        (env.transcribeEvents.map fun pm =>
          (⟨"progress", "transcribe", some pm.1, pm.2⟩ : SSE),
          ["transcribe"])
    let e6 := e5 ++ transcribeBlock.1 ++
      [⟨"step-complete", "transcribe", none,
        "Transcribed: " ++ toString env.segmentCount ++ " segments (" ++
          env.language ++ ")"⟩]
    let inv2 := inv1 ++ transcribeBlock.2
    let e7 := e6 ++
      [⟨"progress", "detect-silence", some 0, "Detecting silence gaps..."⟩,
       ⟨"step-complete", "detect-silence", none,
        "Found " ++ toString env.silenceGapCount ++ " silence gaps (" ++
          env.silenceTotalStr ++ "s total)"⟩]
    let inv3 := inv2 ++ ["detectSilence"]
    let e8 := e7 ++
      [⟨"progress", "analyze", some 0, "AI analyzing highlights..."⟩,
       ⟨"step-complete", "analyze", none,
        "Found " ++ toString env.clipTitles.length ++ " highlight clips"⟩]
    let inv4 := inv3 ++ ["analyzeHighlights"]
    let e9 := e8 ++
      [⟨"progress", "extract-clips", some 0, "Extracting clips..."⟩] ++
      perClipEvents "extract-clips" "Extracting: " env.clipTitles ++
      [⟨"step-complete", "extract-clips", none,
        "Extracted " ++ toString env.clipTitles.length ++ " clips"⟩]
    let inv5 := inv4 ++ ["extractAllClips"]
    let e10 := e9 ++
      [⟨"progress", "render", some 0, "Rendering short-form clips..."⟩] ++
      perClipEvents "render" "Rendering: " env.clipTitles ++
      [⟨"step-complete", "render", none,
        "Rendered " ++ toString env.clipTitles.length ++ " clips"⟩]
    let inv6 := inv5 ++ ["renderAllClips"]
    if env.anyStoryMeta then
      ⟨e10 ++
        [⟨"progress", "story-compose", some 0, "Composing stories..."⟩] ++
        perClipEvents "story-compose" "Story: " env.storyTitles ++
        [⟨"step-complete", "story-compose", none,
          "Composed " ++ toString env.storyComposedCount ++
            " story clips"⟩],
        inv6 ++ ["composeAllStories"], true⟩
    else
      ⟨e10 ++ [⟨"step-complete", "story-compose", none,
        "Skipped — no story metadata"⟩], inv6, true⟩

/-- A concrete fully-cached run environment. -/
def envCachedRun : PipelineEnv :=
  { urlValid := true
    downloadEvents := []
    videoTitle := "v"
    audioReady := true
    transcriptReady := true
    transcribeEvents := []
    segmentCount := 3
    language := "en"
    silenceGapCount := 0
    silenceTotalStr := "0.0"
    clipTitles := ["a"]
    anyStoryMeta := false
    storyTitles := []
    storyComposedCount := 0 }

/-- C7 counterexample: in a run where the audio artifact is already present,
the extract-audio stage skips the extraction call but emits only its normal
`progress 0` / `step-complete` events — no synthetic `progress 100` event
and no "cached" message — contradicting the claim that both the
transcription and the audio-extraction stage emit a 100%/"cached" event. -/
theorem c7_counterexample_no_cached_event_for_audio :
    ((runPipelineModel envCachedRun).events.filter
        (fun e => e.stepId == "extract-audio")) =
      [⟨"progress", "extract-audio", some 0,
        "Extracting audio (16kHz mono)..."⟩,
       ⟨"step-complete", "extract-audio", none, "Audio extracted"⟩] ∧
    (∀ e ∈ (runPipelineModel envCachedRun).events,
      e.stepId = "extract-audio" → e.progress ≠ some 100) ∧
    "extractAudio" ∉ (runPipelineModel envCachedRun).invoked := by
  refine ⟨by rfl, ?_, by decide⟩
  intro e he
  fin_cases he <;> decide

/-- C7 (amended): when the target artifacts already exist and are non-empty,
both the audio-extraction and the transcription invocations are skipped; the
transcription stage emits the synthetic `progress 100 / "Using cached
transcript"` event, but the audio-extraction stage emits only its usual
`progress 0` and `step-complete` events — no synthetic 100%/"cached" event
exists for it. -/
theorem c7_cached_skip_behaviour (env : PipelineEnv)
    (hurl : env.urlValid = true) (haudio : env.audioReady = true)
    (htr : env.transcriptReady = true) :
    "extractAudio" ∉ (runPipelineModel env).invoked ∧
    "transcribe" ∉ (runPipelineModel env).invoked ∧
    (⟨"progress", "transcribe", some 100, "Using cached transcript"⟩ : SSE) ∈
      (runPipelineModel env).events ∧
    (runPipelineModel env).events.filter
        (fun e => e.stepId == "extract-audio") =
      [⟨"progress", "extract-audio", some 0,
        "Extracting audio (16kHz mono)..."⟩,
       ⟨"step-complete", "extract-audio", none, "Audio extracted"⟩] := by
  cases hstory : env.anyStoryMeta <;>
    refine ⟨?_, ?_, ?_, ?_⟩ <;>
      simp [runPipelineModel, hurl, haudio, htr, hstory, perClipEvents,
        List.filter_append, List.filter_map, Function.comp_def,
        List.filter_false]

/-- Witness for C7 (amended) at the concrete cached environment. -/
theorem c7_cached_skip_behaviour_witness :
    "extractAudio" ∉ (runPipelineModel envCachedRun).invoked ∧
    "transcribe" ∉ (runPipelineModel envCachedRun).invoked ∧
    (⟨"progress", "transcribe", some 100, "Using cached transcript"⟩ : SSE) ∈
      (runPipelineModel envCachedRun).events ∧
    (runPipelineModel envCachedRun).events.filter
        (fun e => e.stepId == "extract-audio") =
      [⟨"progress", "extract-audio", some 0,
        "Extracting audio (16kHz mono)..."⟩,
       ⟨"step-complete", "extract-audio", none, "Audio extracted"⟩] :=
  c7_cached_skip_behaviour envCachedRun rfl rfl rfl

/-! ## Subtitle Compositor (`src/lib/subtitles.ts`) and clip-relative
transcript slicing (`getSegmentsInRange`, `template-renderer.ts` lines
150-168)

`generateAss` is modelled up to its per-segment dialogue entries: a
`Dialogue` record keeps the (rational) start/end times and the escaped text;
the `formatAssTime` string rendering of the timestamps and the ASS
header/serialization are elided. In JS, a segment with empty text and no
words reaches the proportional-timing branch with `totalLen = 0`, so
`ratio = 0/0 = NaN` and the emitted entry has `NaN` timestamps; in `ℚ`,
`0/0 = 0`. The number and text of emitted entries is identical either
way. -/

/-- `TranscriptWord` (`src/types/project.ts`). -/
structure TranscriptWord where
  start : ℚ
  «end» : ℚ
  word : String
deriving DecidableEq, Repr

/-- `TranscriptSegment` (`src/types/project.ts`): optional word-level
timing. -/
structure TranscriptSegment where
  start : ℚ
  «end» : ℚ
  text : String
  words : Option (List TranscriptWord)
deriving DecidableEq, Repr

/-- A `Dialogue:` line of the generated ASS events section, up to timestamp
formatting. -/
structure Dialogue where
  start : ℚ
  «end» : ℚ
  text : String
deriving DecidableEq, Repr

/-- Global replacement of one character (the JS global regex replaces used
by the source all have single-character patterns). -/
def replaceChar (c : Char) (repl : List Char) : List Char → List Char
  | [] => []
  | x :: xs =>
      if x = c then repl ++ replaceChar c repl xs
      else x :: replaceChar c repl xs

/-- JS `String.prototype.trim` on the characters the transcripts use:
strip leading and trailing whitespace. -/
def jsTrim (s : String) : String :=
  ⟨((s.data.dropWhile Char.isWhitespace).reverse.dropWhile
      Char.isWhitespace).reverse⟩

/-- `escapeAssText` (`subtitles.ts` lines 167-169): escape `\`, `\x7b`,
`\x7d` by three sequential global replaces (each pattern is one
character). -/
def escapeAssText (text : String) : String :=
  ⟨replaceChar '\x7d' ['\\', '\x7d']
    (replaceChar '\x7b' ['\\', '\x7b']
      (replaceChar '\\' ['\\', '\\'] text.data))⟩

/-- `sep` occurs in `s` at character position `i`. -/
def occursAt (s sep : String) (i : Nat) : Bool :=
  decide ((s.data.drop i).take sep.data.length = sep.data)

/-- JS `s.lastIndexOf(sep, fromIdx)` for non-empty `sep`: the largest start
position `≤ fromIdx` of an occurrence, `-1` if none. -/
def jsLastIndexOf (s sep : String) (fromIdx : Nat) : Int :=
  match ((List.range (fromIdx + 1)).filter (occursAt s sep)).getLast? with
  | some i => (i : Int)
  | none => -1

/-- The break-point search of `smartSplit` (`subtitles.ts` lines 117-125):
try the separators in order; accept the first whose last occurrence index
exceeds `maxChars * 0.3`, adding `sep.length - 1` for non-space separators;
`-1` when none qualifies. -/
def sepBreak (remaining : String) (maxChars : Nat) : List String → Int
  | [] => -1
  | sep :: rest =>
      let idx := jsLastIndexOf remaining sep maxChars
      if (maxChars : ℚ) * 0.3 < (idx : ℚ) then
        idx + (if sep = " " then 0 else (sep.length : Int) - 1)
      else sepBreak remaining maxChars rest

/-- The separator priority list of `smartSplit`. -/
def smartSplitSeps : List String := [". ", "! ", "? ", ", ", " "]

/-- The `while remaining.length > maxChars` loop of `smartSplit`
(`subtitles.ts` lines 115-134), with explicit fuel. Each iteration strips at
least one character whenever `maxChars ≥ 1` (as in all templates), so
`text.length` fuel suffices; for `maxChars = 0` the JS loop would not
terminate. -/
def smartSplitGo (maxChars : Nat) : Nat → String → List String
  | 0, remaining => if remaining = "" then [] else [remaining]
  | fuel + 1, remaining =>
      if remaining.length > maxChars then
        let breakIdx0 := sepBreak remaining maxChars smartSplitSeps
        let breakIdx := if breakIdx0 ≤ 0 then maxChars else breakIdx0.toNat
        let line := jsTrim ⟨remaining.data.take breakIdx⟩
        let rest := jsTrim ⟨remaining.data.drop breakIdx⟩
        line :: smartSplitGo maxChars fuel rest
      else if remaining = "" then [] else [remaining]

/-- `smartSplit(text, maxChars)` (`subtitles.ts` lines 109-135). Note the
early return hands back `[text]` even when `text` is empty. -/
def smartSplit (text : String) (maxChars : Nat) : List String :=
  if text.length ≤ maxChars then [text]
  else smartSplitGo maxChars text.length text

/-- A timed subtitle line of the word-level branch. -/
structure WordLine where
  text : String
  start : ℚ
  «end» : ℚ
deriving DecidableEq, Repr

/-- The greedy word-packing loop of `distributeWordsToLines`
(`subtitles.ts` lines 70-106): `currentLine`, `lineStart` and the previous
word's end are threaded through; a flush emits
`[lineStart, words[i-1].end]`. -/
def distributeGo (maxChars : Nat) (allWords : List TranscriptWord) :
    List TranscriptWord → String → ℚ → ℚ → List WordLine
  | [], currentLine, lineStart, _ =>
      if jsTrim currentLine = "" then []
      else
        [⟨jsTrim currentLine, lineStart,
          ((allWords.getLast?).map (fun w => w.«end»)).getD (lineStart + 1)⟩]
  | w :: ws, currentLine, lineStart, prevEnd =>
      let candidate := if currentLine = "" then w.word
        else currentLine ++ " " ++ w.word
      if candidate.length > maxChars ∧ currentLine ≠ "" then
        ⟨jsTrim currentLine, lineStart, prevEnd⟩ ::
          distributeGo maxChars allWords ws w.word w.start w.«end»
      else
        distributeGo maxChars allWords ws candidate lineStart w.«end»

/-- `distributeWordsToLines(words, maxChars)` (`subtitles.ts` lines
70-106). -/
def distributeWordsToLines (words : List TranscriptWord) (maxChars : Nat) :
    List WordLine :=
  distributeGo maxChars words words ""
    (((words.head?).map (fun w => w.start)).getD 0) 0

/-- The segment-level proportional-timing loop (`subtitles.ts` lines 50-62):
each line's duration is the segment duration times its character-length
share, with a running cursor. In JS `ratio` is `NaN` when `totalLen = 0`;
in `ℚ` the division yields `0`. -/
def segLineGo (segStart segEnd : ℚ) (totalLen : Nat) :
    List String → ℚ → List Dialogue
  | [], _ => []
  | line :: rest, cursor =>
      let ratio : ℚ := (line.length : ℚ) / (totalLen : ℚ)
      let lineDuration := (segEnd - segStart) * ratio
      ⟨cursor, cursor + lineDuration, escapeAssText line⟩ ::
        segLineGo segStart segEnd totalLen rest (cursor + lineDuration)

/-- The dialogue entries `generateAss` produces for one transcript segment
(`subtitles.ts` lines 37-63): word-level timing when
`seg.words && seg.words.length > 0`, proportional segment-level timing
otherwise. -/
def segmentDialogues (seg : TranscriptSegment) (maxChars : Nat) :
    List Dialogue :=
  let lines := smartSplit seg.text maxChars
  if (seg.words.getD []).length > 0 then
    (distributeWordsToLines (seg.words.getD []) maxChars).map fun wl =>
      ⟨wl.start, wl.«end», escapeAssText wl.text⟩
  else
    segLineGo seg.start seg.«end»
      (lines.foldl (fun s l => s + l.length) 0) lines seg.start

/-- The overlap filter of `getSegmentsInRange`
(`template-renderer.ts` line 156): `s.end > startSec && s.start < endSec`. -/
def overlapsWindow (startSec endSec : ℚ) (s : TranscriptSegment) : Bool :=
  decide (s.«end» > startSec) && decide (s.start < endSec)

/-- The clip-relative shift-and-clamp of `getSegmentsInRange`
(`template-renderer.ts` lines 157-167). -/
def shiftClamp (startSec endSec : ℚ) (s : TranscriptSegment) :
    TranscriptSegment :=
  { s with
    start := max 0 (s.start - startSec)
    «end» := min (endSec - startSec) (s.«end» - startSec)
    words := s.words.map fun ws => ws.map fun w =>
      { w with
        start := max 0 (w.start - startSec)
        «end» := min (endSec - startSec) (w.«end» - startSec) } }

/-- `getSegmentsInRange(segments, startSec, endSec)`
(`template-renderer.ts` lines 150-168). -/
def getSegmentsInRange (segments : List TranscriptSegment)
    (startSec endSec : ℚ) : List TranscriptSegment :=
  (segments.filter (overlapsWindow startSec endSec)).map
    (shiftClamp startSec endSec)

/-- C8 counterexample: a transcript segment with zero words and empty text
produces exactly ONE dialogue entry (with empty text) — `smartSplit` returns
`[""]` for the empty string and the proportional-timing loop pushes a line
for it — contradicting the claim that no dialogue line entries are
produced. -/
theorem c8_counterexample_empty_segment_entry :
    (segmentDialogues ⟨0, 1, "", some []⟩ 42).length = 1 ∧
    (segmentDialogues ⟨0, 1, "", some []⟩ 42).map Dialogue.text = [""] ∧
    segmentDialogues ⟨0, 1, "", some []⟩ 42 ≠ [] := by
  have heval : segmentDialogues ⟨0, 1, "", some []⟩ 42 =
      [⟨0, 0 + (1 - 0) * ((0 : ℚ) / (0 : ℚ)), ""⟩] := by
    norm_num [segmentDialogues, smartSplit, segLineGo, escapeAssText,
      replaceChar]
  rw [heval]
  norm_num

/-- C8 (amended): a transcript segment with zero words and empty text
produces exactly one dialogue entry, whose text is empty (not zero
entries); every transcript segment lying entirely outside the clip's
`[startSec, endSec]` window fails the overlap filter and is excluded; and
each included segment's timestamps are shifted clip-relative and clamped
into `[0, endSec - startSec]`. -/
theorem c8_subtitle_boundaries (startSec endSec : ℚ)
    (segments : List TranscriptSegment) (hwin : startSec ≤ endSec) :
    (∀ (seg : TranscriptSegment) (maxChars : Nat), seg.text = "" →
      (seg.words.getD []).length = 0 →
      (segmentDialogues seg maxChars).length = 1 ∧
      (segmentDialogues seg maxChars).map Dialogue.text = [""]) ∧
    (∀ s : TranscriptSegment, s.«end» ≤ startSec ∨ endSec ≤ s.start →
      overlapsWindow startSec endSec s = false) ∧
    (∀ t ∈ getSegmentsInRange segments startSec endSec,
      0 ≤ t.start ∧ t.start ≤ endSec - startSec ∧
      0 ≤ t.«end» ∧ t.«end» ≤ endSec - startSec) := by
  refine ⟨?_, ?_, ?_⟩
  · intro seg maxChars htext hwords
    have hsplit : smartSplit seg.text maxChars = [""] := by
      rw [htext, smartSplit]
      simp
    simp only [segmentDialogues, hsplit, hwords, gt_iff_lt, lt_irrefl,
      if_false]
    norm_num [segLineGo, escapeAssText, replaceChar]
  · intro s hout
    rw [overlapsWindow]
    rcases hout with h | h
    · have : decide (s.«end» > startSec) = false := by
        simp [not_lt.mpr h]
      rw [this, Bool.false_and]
    · have : decide (s.start < endSec) = false := by
        simp [not_lt.mpr h]
      rw [this, Bool.and_false]
  · intro t ht
    rw [getSegmentsInRange] at ht
    obtain ⟨s, hs, rfl⟩ := List.mem_map.mp ht
    obtain ⟨-, hov⟩ := List.mem_filter.mp hs
    rw [overlapsWindow, Bool.and_eq_true, decide_eq_true_eq,
      decide_eq_true_eq] at hov
    refine ⟨le_max_left _ _, ?_, ?_, min_le_left _ _⟩
    · exact max_le (by linarith) (by linarith [hov.2])
    · exact le_min (by linarith) (by linarith [hov.1])

/-- Witness for C8 (amended) at a concrete window and segment list. -/
theorem c8_subtitle_boundaries_witness :
    (∀ (seg : TranscriptSegment) (maxChars : Nat), seg.text = "" →
      (seg.words.getD []).length = 0 →
      (segmentDialogues seg maxChars).length = 1 ∧
      (segmentDialogues seg maxChars).map Dialogue.text = [""]) ∧
    (∀ s : TranscriptSegment, s.«end» ≤ (10 : ℚ) ∨ (20 : ℚ) ≤ s.start →
      overlapsWindow 10 20 s = false) ∧
    (∀ t ∈ getSegmentsInRange
        [⟨5, 8, "before", none⟩, ⟨9, 12, "in", none⟩, ⟨25, 30, "after", none⟩]
        10 20,
      0 ≤ t.start ∧ t.start ≤ (20 : ℚ) - 10 ∧
      0 ≤ t.«end» ∧ t.«end» ≤ (20 : ℚ) - 10) :=
  c8_subtitle_boundaries 10 20
    [⟨5, 8, "before", none⟩, ⟨9, 12, "in", none⟩, ⟨25, 30, "after", none⟩]
    (by norm_num)

end ClipForge
